import Mathlib

/-!
Verification development for the agentic-learning SDK (TypeScript) interception
framework.  The definitions below are a shallow embedding of
src/typescript/src/interceptors/vercel.ts, which bundles three modules:
the VercelInterceptor (provider prototype patching), the ClaudeInterceptor
(module-export proxying and transport patching) and the interceptor registry.

Conventions of the embedding:
- JavaScript string truthiness is modelled by String.isEmpty checks
  (absent/null string fields are modelled as the empty string or Option).
- Async functions whose awaited collaborators are pure in the model become
  plain functions; a call that may throw returns Except.
- In-place mutation of the caller request object (the code assigns
  options.prompt on the object the caller passed in) is modelled by
  returning the post-call state of that object alongside the result.
- saveConversationTurn (src/typescript/src/interceptors/utils.ts, whose body
  is not part of the analysed sources) is an external persistence action per
  the spec; the model records each invocation of it as a SavedCall value,
  which is the observable the claims speak about.
-/

/-- One role-tagged message, the `{role, content}` shape used for persistence. -/
structure Turn where
  role : String
  content : String
deriving Repr, DecidableEq

/-- One element of a multi-part message content array: `{type, text}`.
An absent `text` field is modelled as the empty string (JS falsy). -/
structure ContentPart where
  type : String
  text : String
deriving Repr, DecidableEq

/-- The `content` field of a prompt message: a plain string, an array of typed
parts, or some other JS value (neither string nor array). -/
inductive MsgContent where
  | str (s : String)
  | parts (ps : List ContentPart)
  | other
deriving Repr, DecidableEq

/-- JS string coercion of a message content value, as produced by
`memoryContext + '\n\n' + msg.content`: strings coerce to themselves, arrays
join their elements with a comma, other objects print as `[object Object]`. -/
def MsgContent.jsString : MsgContent → String
  | .str s => s
  | .parts ps => String.intercalate "," (ps.map fun _ => "[object Object]")
  | .other => "[object Object]"

/-- One entry of `options.prompt` in the Vercel AI SDK request shape. -/
structure PromptMsg where
  role : String
  content : MsgContent
deriving Repr, DecidableEq

/-- The provider options object passed to doGenerate/doStream; `prompt` is
None when `options.prompt` is absent (falsy). -/
structure Options where
  prompt : Option (List PromptMsg)
deriving Repr, DecidableEq

/-- A recorded invocation of saveConversationTurn(provider, modelName,
requestMessages, responseDict). -/
structure SavedCall where
  provider : String
  modelName : String
  requestMessages : List Turn
  responseDict : Turn
deriving Repr, DecidableEq

/-- The memory-service client handle stored in the active configuration;
`retrieve` models `client.memory.context.retrieve(agentName)`, which may
throw (error) or return a string (empty string models null/empty context). -/
structure MemClient where
  retrieve : String → Except Unit String

/-- The active learning configuration as read by the interceptors:
captureOnly flag, optional memory client, agent name ("" models absent),
and the pre-fetched memory context used by the Claude query proxy. -/
structure ActivationConfig where
  captureOnly : Bool
  client : Option MemClient
  agentName : String
  memoryContext : String

/-- VercelInterceptor.extractUserMessagesFromOptions: collect the text of all
user-role prompt messages; string content verbatim, array content keeps the
text-typed parts joined by a space; results joined by newlines. -/
def extractUserMessagesFromOptions (options : Options) : String :=
  match options.prompt with
  | none => ""
  | some prompt =>
    let messages := prompt.filterMap fun msg =>
      if msg.role == "user" then
        match msg.content with
        | .str s => some s
        | .parts ps =>
          some (String.intercalate " " ((ps.filter fun c => c.type == "text").map (·.text)))
        | .other => none
      else none
    String.intercalate "\n" messages

/-- The prompt rewriting performed by retrieveAndInjectMemoryIntoOptions once
a nonempty memory context is in hand: if a system message exists, prepend the
context (plus a blank line) to the content of every system message; otherwise
insert a fresh system message at the front. -/
def injectIntoPrompt (memoryContext : String) (prompt : List PromptMsg) : List PromptMsg :=
  if prompt.any fun msg => msg.role == "system" then
    prompt.map fun msg =>
      if msg.role == "system" then
        { msg with content := .str (memoryContext ++ "\n\n" ++ msg.content.jsString) }
      else msg
  else
    ⟨"system", .str memoryContext⟩ :: prompt

/-- VercelInterceptor.retrieveAndInjectMemoryIntoOptions: skip when
captureOnly, when client or agent name is absent, when retrieval throws or
returns a falsy context, or when the options carry no prompt; otherwise
rewrite the prompt via injectIntoPrompt.  The returned value is the post-call
state of the very object the caller passed in (the code mutates
options.prompt in place and returns options). -/
def retrieveAndInjectMemoryIntoOptions (config : ActivationConfig) (options : Options) : Options :=
  if config.captureOnly then options
  else
    match config.client with
    | none => options
    | some client =>
      if config.agentName.isEmpty then options
      else
        match client.retrieve config.agentName with
        | .error _ => options
        | .ok memoryContext =>
          if memoryContext.isEmpty then options
          else
            match options.prompt with
            | none => options
            | some prompt => { options with prompt := some (injectIntoPrompt memoryContext prompt) }

/-- A part of a doGenerate response content array. -/
structure RespPart where
  type : String
  text : String
deriving Repr, DecidableEq

/-- A doGenerate response: `text` (None or empty string are falsy) and the
optional `content` part array. -/
structure GenResponse where
  text : Option String
  content : Option (List RespPart)
deriving Repr, DecidableEq

/-- VercelInterceptor.buildResponseDictFromGenerate: prefer a truthy
response.text; otherwise concatenate the truthy text of text-typed content
parts; absent everything normalizes to the empty string. -/
def buildResponseDictFromGenerate (r : GenResponse) : Turn :=
  let text :=
    match r.text with
    | some t =>
      if !t.isEmpty then t
      else
        match r.content with
        | some ps => ps.foldl (fun acc p => if p.type == "text" && !p.text.isEmpty then acc ++ p.text else acc) ""
        | none => ""
    | none =>
      match r.content with
      | some ps => ps.foldl (fun acc p => if p.type == "text" && !p.text.isEmpty then acc ++ p.text else acc) ""
      | none => ""
  ⟨"assistant", text⟩

/-- VercelInterceptor.buildRequestMessages. -/
def buildRequestMessages (userMessage : String) : List Turn :=
  [⟨"user", userMessage⟩]

/-- `context.modelId || 'unknown'`. -/
def jsModelName (modelId : String) : String :=
  if modelId.isEmpty then "unknown" else modelId

/-- Everything observable about one interceptDoGenerate call: the value
returned (or the message of the error thrown), the saveConversationTurn
invocations made, and the state of the caller-owned options object after the
call (the code mutates it in place). -/
structure GenerateOutcome where
  result : Except String GenResponse
  saved : List SavedCall
  callerOptions : Options
deriving Repr

/-- VercelInterceptor.interceptDoGenerate.  `originalMethods` is the
instance's methodKey-to-original map; the stored original is modelled as a
pure function from the options argument to the response.  With no active
configuration the stored original is applied to the unmodified argument (or a
missing entry throws); with an active configuration the user text is
extracted, memory is injected, the original is invoked on the (possibly
mutated) options, and one turn is saved. -/
def interceptDoGenerate (originalMethods : List (String × (Options → GenResponse)))
    (methodKey : String) (modelId : String)
    (config : Option ActivationConfig) (options : Options) : GenerateOutcome :=
  match config with
  | none =>
    match originalMethods.lookup methodKey with
    | none => ⟨.error ("Original method not found: " ++ methodKey), [], options⟩
    | some orig => ⟨.ok (orig options), [], options⟩
  | some cfg =>
    let userMessage := extractUserMessagesFromOptions options
    let modifiedOptions := retrieveAndInjectMemoryIntoOptions cfg options
    match originalMethods.lookup methodKey with
    | none => ⟨.error "TypeError: originalMethod is undefined", [], modifiedOptions⟩
    | some orig =>
      let response := orig modifiedOptions
      ⟨.ok response,
       [⟨"vercel", jsModelName modelId, buildRequestMessages userMessage,
         buildResponseDictFromGenerate response⟩],
       modifiedOptions⟩

/-- One chunk of a doStream response sequence; `textDelta` is empty when the
field is absent or falsy, `extra` stands for every other field of the chunk
(forwarded untouched by the wrapper). -/
structure Chunk where
  type : String
  textDelta : String
  extra : String
deriving Repr, DecidableEq

/-- What interceptDoStream returns: either the raw provider stream untouched
(pass-through when no configuration is active) or the wrapped generator
carrying the user text and model name captured at stream creation. -/
inductive StreamRet where
  | raw (chunks : List Chunk)
  | wrapped (chunks : List Chunk) (userMessage : String) (modelName : String)
deriving Repr, DecidableEq

/-- VercelInterceptor.interceptDoStream, observable as the returned stream
object plus the post-call state of the caller-owned options object. -/
def interceptDoStream (originalMethods : List (String × (Options → List Chunk)))
    (methodKey : String) (modelId : String)
    (config : Option ActivationConfig) (options : Options) :
    Except String StreamRet × Options :=
  match config with
  | none =>
    match originalMethods.lookup methodKey with
    | none => (.error ("Original method not found: " ++ methodKey), options)
    | some orig => (.ok (.raw (orig options)), options)
  | some cfg =>
    let userMessage := extractUserMessagesFromOptions options
    let modifiedOptions := retrieveAndInjectMemoryIntoOptions cfg options
    match originalMethods.lookup methodKey with
    | none => (.error "TypeError: originalMethod is undefined", modifiedOptions)
    | some orig =>
      (.ok (.wrapped (orig modifiedOptions) userMessage (jsModelName modelId)), modifiedOptions)

/-- The text accumulated by the wrapped generator: the concatenation of the
truthy textDelta of every text-delta chunk seen so far. -/
def accumulateStreamText (chunks : List Chunk) : String :=
  chunks.foldl (fun acc c => if c.type == "text-delta" && !c.textDelta.isEmpty then acc ++ c.textDelta else acc) ""

/-- Consuming a stream returned by interceptDoStream: the caller pulls
`k` chunks (k past the length means full consumption) and then the generator
finishes or is cleaned up, running its finally block once.  A raw stream
involves no instrumentation and persists nothing; the wrapped generator
yields every chunk unchanged, and on cleanup persists one turn when both the
accumulated text and the captured user message are truthy
(wrapProviderStreamingResponse and saveProviderStreamingTurn). -/
def consumeStream : StreamRet → Nat → List Chunk × List SavedCall
  | .raw chunks, k => (chunks.take k, [])
  | .wrapped chunks userMessage modelName, k =>
    let consumed := chunks.take k
    let acc := accumulateStreamText consumed
    (consumed,
     if !acc.isEmpty && !userMessage.isEmpty then
       [⟨"vercel", modelName, buildRequestMessages userMessage, ⟨"assistant", acc⟩⟩]
     else [])

/-- Claude query options as touched by the interceptor: the systemPrompt slot
plus `extra`, standing for every other option field (left untouched). -/
structure ClaudeOptions where
  systemPrompt : Option String
  extra : String
deriving Repr, DecidableEq

/-- The params object handed to the Claude Agent SDK query function. -/
structure ClaudeParams where
  prompt : String
  options : Option ClaudeOptions
deriving Repr, DecidableEq

/-- A fresh empty options object, as created by `params.options = {}`. -/
def emptyClaudeOptions : ClaudeOptions := ⟨none, ""⟩

/-- The query wrapper installed by ClaudeInterceptor.patchClaudeSDK through
the export Proxy: when a configuration is active, captureOnly is off and a
truthy pre-fetched memoryContext is present, it writes that context into
params.options.systemPrompt (creating the options object when absent) and
then calls the original query; otherwise params pass through untouched.  The
returned value is the params object as the original query receives it. -/
def proxiedQuery (config : Option ActivationConfig) (params : ClaudeParams) : ClaudeParams :=
  match config with
  | some cfg =>
    if !cfg.captureOnly && !cfg.memoryContext.isEmpty then
      let opts := params.options.getD emptyClaudeOptions
      { params with options := some { opts with systemPrompt := some cfg.memoryContext } }
    else params
  | none => params

/-- The message body carried by an SDK message; content may be absent. -/
structure MsgBody where
  content : Option MsgContent
deriving Repr, DecidableEq

/-- One message produced by the Claude transport readMessages iterator;
`extra` stands for all further fields, forwarded untouched. -/
structure SDKMsg where
  type : String
  message : Option MsgBody
  extra : String
deriving Repr, DecidableEq

/-- ClaudeInterceptor.extractContentFromMessage: string content verbatim,
array content keeps the truthy text of text-typed blocks joined with no
separator, anything else yields the empty string. -/
def extractContentFromMessage (body : MsgBody) : String :=
  match body.content with
  | some (.str s) => s
  | some (.parts ps) =>
    String.join ((ps.filter fun b => b.type == "text" && !b.text.isEmpty).map (·.text))
  | some .other => ""
  | none => ""

/-- The assistant text accumulated by wrapMessageIterator over the messages
seen so far: the truthy extracted content of assistant-typed messages,
concatenated. -/
def claudeAccum (msgs : List SDKMsg) : String :=
  String.join (msgs.filterMap fun msg =>
    if msg.type == "assistant" then
      match msg.message with
      | some body =>
        let c := extractContentFromMessage body
        if c.isEmpty then none else some c
      | none => none
    else none)

/-- Everything observable about consuming one wrapped Claude message
iterator: the messages yielded, the saveConversationTurn invocations of the
finally block, and the pendingUserMessage slot of the configuration
afterwards. -/
structure ClaudeStreamOutcome where
  yielded : List SDKMsg
  saves : List SavedCall
  pendingAfter : String
deriving Repr, DecidableEq

/-- ClaudeInterceptor.wrapMessageIterator, consumed for `k` pulls (k past the
length means full consumption) followed by the guaranteed finally block:
every message is yielded unchanged; on cleanup, when the pending user message
or the accumulated assistant text is truthy, exactly one turn is saved (the
request side empty unless the user message is truthy) and the pending slot is
cleared. -/
def consumeClaude (msgs : List SDKMsg) (pendingUserMessage : String) (k : Nat) :
    ClaudeStreamOutcome :=
  let consumed := msgs.take k
  let assistantMessage := claudeAccum consumed
  if !pendingUserMessage.isEmpty || !assistantMessage.isEmpty then
    ⟨consumed,
     [⟨"claude", "claude",
       if pendingUserMessage.isEmpty then [] else buildRequestMessages pendingUserMessage,
       ⟨"assistant", assistantMessage⟩⟩],
     ""⟩
  else ⟨consumed, [], pendingUserMessage⟩

/-- JS `haystack.includes(needle)`. -/
def jsIncludes (haystack needle : String) : Bool :=
  needle.isEmpty || (haystack.splitOn needle).length > 1

/-- ClaudeInterceptor.isAvailable: when reading the module cache does not
throw, strategy 1 checks for a cached SDK key, strategy 2 tries a require,
and strategy 3 unconditionally answers true (relying on lazy require-hook
installation); only a throwing cache access yields false. -/
def claudeIsAvailable (cacheAccessOk : Bool) (cacheKeys : List String) (requireOk : Bool) : Bool :=
  if cacheAccessOk then
    let hasClaude := cacheKeys.any fun k =>
      jsIncludes k "@anthropic-ai/claude-agent-sdk" && (jsIncludes k "sdk." || jsIncludes k "index.")
    if hasClaude then true
    else if requireOk then true
    else true
  else false

/-- What the registry knows about one interceptor variant: the provider name
of a fresh instance, what its isAvailable() answers, and whether install()
or uninstall() would throw. -/
structure VariantSpec where
  provider : String
  available : Bool
  installThrows : Bool
  uninstallThrows : Bool
deriving Repr, DecidableEq

/-- The registry install() loop: for each registered class in order, make a
fresh instance, check isAvailable(), and when available call install() inside
a try/catch — a throwing install is skipped and iteration continues; a
successful one is appended to the active list and its provider name
collected. -/
def registryInstall : List VariantSpec → List String × List VariantSpec
  | [] => ([], [])
  | v :: rest =>
    if v.available then
      if v.installThrows then registryInstall rest
      else
        let t := registryInstall rest
        (v.provider :: t.1, v :: t.2)
    else registryInstall rest

/-- The registry uninstallAll() loop: uninstall() is attempted on every
previously-activated instance inside a try/catch (so a throwing uninstall
does not stop the loop), then the active list is emptied.  The first
component records the attempts in order. -/
def uninstallAllModel (active : List VariantSpec) : List String × List VariantSpec :=
  (active.map (·.provider), [])

/-- A concrete method slot value on a provider prototype: either the pristine
provider implementation or the wrapper closure installed by interceptor
instance `instId` for method key `key`. -/
inductive MethodImpl where
  | original
  | wrapper (instId : Nat) (key : String)
deriving Repr, DecidableEq

/-- The shared prototype of a provider model class, with its two patchable
methods. -/
structure Proto where
  doGenerate : MethodImpl
  doStream : MethodImpl
deriving Repr, DecidableEq

/-- The per-instance bookkeeping of a VercelInterceptor: the
originalMethods map (association list, newest first) and the patchedClasses
set. -/
structure VInstSt where
  originalMethods : List (String × MethodImpl)
  patchedClasses : List String
deriving Repr, DecidableEq

/-- VercelInterceptor.tryPatchProviderModels for a provider whose factory
yields an instance of class `className` with both methods present: a class
already in this instance's patchedClasses set is left untouched; otherwise
each method's current implementation is stored under its key (only when the
key is not yet present) and the slot is replaced by this instance's wrapper,
and the class is recorded as patched. -/
def tryPatchProviderModels (instId : Nat) (st : VInstSt) (className : String) (proto : Proto) :
    VInstSt × Proto × Bool :=
  if st.patchedClasses.contains className then (st, proto, true)
  else
    let genKey := className ++ ".doGenerate"
    let om1 :=
      if (st.originalMethods.lookup genKey).isNone then (genKey, proto.doGenerate) :: st.originalMethods
      else st.originalMethods
    let streamKey := className ++ ".doStream"
    let om2 :=
      if (om1.lookup streamKey).isNone then (streamKey, proto.doStream) :: om1
      else om1
    (⟨om2, className :: st.patchedClasses⟩,
     ⟨.wrapper instId genKey, .wrapper instId streamKey⟩,
     true)

/-- VercelInterceptor.uninstall: the loop over originalMethods restores
nothing (the prototype reference needed to restore is not kept), then both
bookkeeping containers are cleared.  The patched prototype itself is left
untouched. -/
def vercelUninstall (_st : VInstSt) : VInstSt := ⟨[], []⟩

/-- Calling a method slot with no active configuration, in an environment
mapping instance ids to their bookkeeping: the pristine implementation
returns successfully having run once; a wrapper looks its key up in its
instance's originalMethods map, throws Original-method-not-found when the
entry is gone, and otherwise delegates.  The ok value counts how often the
pristine implementation ran.  Fueled to keep the delegation chain finite. -/
def callMethod (env : Nat → VInstSt) : Nat → MethodImpl → Except String Nat
  | _, .original => .ok 1
  | 0, .wrapper _ _ => .error "out of fuel"
  | fuel + 1, .wrapper i key =>
    match (env i).originalMethods.lookup key with
    | none => .error ("Original method not found: " ++ key)
    | some impl => callMethod env fuel impl

/-- The number of wrapper layers stacked on a method slot before the
pristine implementation is reached (None when a link is missing or fuel runs
out). -/
def wrapperLayers (env : Nat → VInstSt) : Nat → MethodImpl → Option Nat
  | _, .original => some 0
  | 0, .wrapper _ _ => none
  | fuel + 1, .wrapper i key =>
    match (env i).originalMethods.lookup key with
    | none => none
    | some impl => (wrapperLayers env fuel impl).map (· + 1)

/-- Claim C1: for every provider call made while no activation scope is
active (currentConfig absent), the intercepted doGenerate and doStream
methods invoke the stored original implementation on the unmodified
arguments and return its result verbatim — equal to calling the
un-instrumented implementation — and no conversation turn is persisted
(no saveConversationTurn invocation, and the passed-through stream persists
nothing however it is consumed). -/
theorem claim_C1_inactive_passthrough
    (omGen : List (String × (Options → GenResponse)))
    (omStr : List (String × (Options → List Chunk)))
    (genKey streamKey modelId : String) (options : Options)
    (origGen : Options → GenResponse) (origStr : Options → List Chunk) (k : Nat)
    (hg : omGen.lookup genKey = some origGen)
    (hs : omStr.lookup streamKey = some origStr) :
    interceptDoGenerate omGen genKey modelId none options
      = ⟨.ok (origGen options), [], options⟩
    ∧ interceptDoStream omStr streamKey modelId none options
      = (.ok (.raw (origStr options)), options)
    ∧ consumeStream (.raw (origStr options)) k = ((origStr options).take k, []) := by
  refine ⟨?_, ?_, rfl⟩
  · simp [interceptDoGenerate, hg]
  · simp [interceptDoStream, hs]

/-- The stored original implementations used by the C1 witness. -/
def genOrigW : Options → GenResponse := fun _ => ⟨some "hello", none⟩

/-- Stored original doStream used by the C1 witness. -/
def strOrigW : Options → List Chunk := fun _ => [⟨"text-delta", "hi", "x"⟩]

/-- Concrete originalMethods map for the C1 witness (generate side). -/
def omGenW : List (String × (Options → GenResponse)) := [("M.doGenerate", genOrigW)]

/-- Concrete originalMethods map for the C1 witness (stream side). -/
def omStrW : List (String × (Options → List Chunk)) := [("M.doStream", strOrigW)]

/-- Concrete request options for the C1 witness. -/
def optionsW : Options := ⟨some [⟨"user", .str "hi there"⟩]⟩

/-- Witness for C1 at concrete inputs. -/
theorem claim_C1_inactive_passthrough_witness :
    interceptDoGenerate omGenW "M.doGenerate" "m1" none optionsW
      = ⟨.ok (genOrigW optionsW), [], optionsW⟩
    ∧ interceptDoStream omStrW "M.doStream" "m1" none optionsW
      = (.ok (.raw (strOrigW optionsW)), optionsW)
    ∧ consumeStream (.raw (strOrigW optionsW)) 1 = ((strOrigW optionsW).take 1, []) :=
  claim_C1_inactive_passthrough omGenW omStrW "M.doGenerate" "M.doStream" "m1" optionsW
    genOrigW strOrigW 1 rfl rfl

/-- Claim C5: inside a scope with captureOnly=true, injection is skipped
entirely — the request reaching the original implementation (and the caller
object afterwards) is the unmodified input, so no stored memory value is
added anywhere in the outgoing request content — while one conversation turn
is still persisted after the call; the Claude query proxy likewise passes
params through untouched. -/
theorem claim_C5_capture_only_skips_injection_still_persists
    (omGen : List (String × (Options → GenResponse)))
    (genKey modelId : String) (options : Options)
    (origGen : Options → GenResponse) (cfg : ActivationConfig) (params : ClaudeParams)
    (hg : omGen.lookup genKey = some origGen)
    (hc : cfg.captureOnly = true) :
    retrieveAndInjectMemoryIntoOptions cfg options = options
    ∧ interceptDoGenerate omGen genKey modelId (some cfg) options
      = ⟨.ok (origGen options),
         [⟨"vercel", jsModelName modelId,
           buildRequestMessages (extractUserMessagesFromOptions options),
           buildResponseDictFromGenerate (origGen options)⟩],
         options⟩
    ∧ proxiedQuery (some cfg) params = params := by
  have h1 : retrieveAndInjectMemoryIntoOptions cfg options = options := by
    simp [retrieveAndInjectMemoryIntoOptions, hc]
  refine ⟨h1, ?_, ?_⟩
  · simp [interceptDoGenerate, hg, h1]
  · simp [proxiedQuery, hc]

/-- A memory client whose context retrieval succeeds with a stored value. -/
def clientOkW : MemClient := ⟨fun _ => .ok "Secret information"⟩

/-- A capture-only configuration that does hold a client, an agent and a
pre-fetched context, none of which may be injected. -/
def cfgCaptureW : ActivationConfig := ⟨true, some clientOkW, "test-1", "Secret information"⟩

/-- Concrete Claude query params with an existing systemPrompt. -/
def claudeParamsW : ClaudeParams := ⟨"hello", some ⟨some "sys", "opt"⟩⟩

/-- Witness for C5 at concrete inputs. -/
theorem claim_C5_capture_only_witness :
    retrieveAndInjectMemoryIntoOptions cfgCaptureW optionsW = optionsW
    ∧ interceptDoGenerate omGenW "M.doGenerate" "m1" (some cfgCaptureW) optionsW
      = ⟨.ok (genOrigW optionsW),
         [⟨"vercel", jsModelName "m1",
           buildRequestMessages (extractUserMessagesFromOptions optionsW),
           buildResponseDictFromGenerate (genOrigW optionsW)⟩],
         optionsW⟩
    ∧ proxiedQuery (some cfgCaptureW) claudeParamsW = claudeParamsW :=
  claim_C5_capture_only_skips_injection_still_persists omGenW "M.doGenerate" "m1" optionsW
    genOrigW cfgCaptureW claudeParamsW rfl rfl

/-- Claim C7: when memory retrieval throws during an intercepted call, the
call is not aborted — the original implementation is invoked with the
unmodified request, its result is returned verbatim, and the turn is still
persisted. -/
theorem claim_C7_injection_failure_proceeds_unmodified
    (omGen : List (String × (Options → GenResponse)))
    (genKey modelId : String) (options : Options)
    (origGen : Options → GenResponse) (cl : MemClient) (agent mctx : String)
    (hg : omGen.lookup genKey = some origGen)
    (hagent : agent.isEmpty = false)
    (hthrow : cl.retrieve agent = .error ()) :
    retrieveAndInjectMemoryIntoOptions ⟨false, some cl, agent, mctx⟩ options = options
    ∧ interceptDoGenerate omGen genKey modelId (some ⟨false, some cl, agent, mctx⟩) options
      = ⟨.ok (origGen options),
         [⟨"vercel", jsModelName modelId,
           buildRequestMessages (extractUserMessagesFromOptions options),
           buildResponseDictFromGenerate (origGen options)⟩],
         options⟩ := by
  have h1 : retrieveAndInjectMemoryIntoOptions ⟨false, some cl, agent, mctx⟩ options = options := by
    simp [retrieveAndInjectMemoryIntoOptions, hagent, hthrow]
  exact ⟨h1, by simp [interceptDoGenerate, hg, h1]⟩

/-- A memory client whose context retrieval throws. -/
def clientThrowW : MemClient := ⟨fun _ => .error ()⟩

/-- Witness for C7 at concrete inputs. -/
theorem claim_C7_injection_failure_witness :
    retrieveAndInjectMemoryIntoOptions ⟨false, some clientThrowW, "test-1", ""⟩ optionsW = optionsW
    ∧ interceptDoGenerate omGenW "M.doGenerate" "m1"
        (some ⟨false, some clientThrowW, "test-1", ""⟩) optionsW
      = ⟨.ok (genOrigW optionsW),
         [⟨"vercel", jsModelName "m1",
           buildRequestMessages (extractUserMessagesFromOptions optionsW),
           buildResponseDictFromGenerate (genOrigW optionsW)⟩],
         optionsW⟩ :=
  claim_C7_injection_failure_proceeds_unmodified omGenW "M.doGenerate" "m1" optionsW
    genOrigW clientThrowW "test-1" "" rfl rfl rfl

/-- Configuration used by the C6 counterexample: active scope, captureOnly
off, pre-fetched memory context "MEM". -/
def cfgClaudeCX : ActivationConfig := ⟨false, none, "", "MEM"⟩

/-- Claude query params that already carry a systemPrompt. -/
def paramsCX : ClaudeParams := ⟨"q", some ⟨some "EXISTING", "o"⟩⟩

/-- Counterexample to C6 as stated: on the Claude query path, with memory
context "MEM" present and an existing systemPrompt "EXISTING", the request
reaching the original query carries systemPrompt "MEM" — the pre-fetched
context overwrites the existing system slot instead of being prepended to
it. -/
theorem claim_C6_counterexample :
    (proxiedQuery (some cfgClaudeCX) paramsCX).options = some ⟨some "MEM", "o"⟩
    ∧ (proxiedQuery (some cfgClaudeCX) paramsCX).options
        ≠ some ⟨some ("MEM" ++ "\n\n" ++ "EXISTING"), "o"⟩ := by
  exact ⟨rfl, by decide⟩

/-- Claim C6 as amended: with captureOnly false, on the Vercel path — client
and agent identity present, a nonempty memory context retrieved, and a
prompt present — the context is injected before the original implementation
is invoked, by prepending it to each existing system message when one
exists and by inserting a fresh system message at the front otherwise; on
the Claude query path a nonempty pre-fetched context overwrites
options.systemPrompt. -/
theorem claim_C6_memory_injection_into_system_slot
    (omGen : List (String × (Options → GenResponse)))
    (genKey modelId : String) (options : Options) (prompt : List PromptMsg)
    (origGen : Options → GenResponse) (cl : MemClient) (agent mc mctx : String)
    (cl2 : Option MemClient) (agent2 mctx2 pr : String) (copts : ClaudeOptions)
    (hg : omGen.lookup genKey = some origGen)
    (hagent : agent.isEmpty = false)
    (hret : cl.retrieve agent = .ok mc)
    (hmc : mc.isEmpty = false)
    (hprompt : options.prompt = some prompt)
    (hmctx2 : mctx2.isEmpty = false) :
    retrieveAndInjectMemoryIntoOptions ⟨false, some cl, agent, mctx⟩ options
      = { options with prompt := some (injectIntoPrompt mc prompt) }
    ∧ (interceptDoGenerate omGen genKey modelId (some ⟨false, some cl, agent, mctx⟩) options).result
      = .ok (origGen { options with prompt := some (injectIntoPrompt mc prompt) })
    ∧ ((prompt.any fun m => m.role == "system") = true →
        injectIntoPrompt mc prompt
          = prompt.map fun m =>
              if m.role == "system" then
                { m with content := .str (mc ++ "\n\n" ++ m.content.jsString) }
              else m)
    ∧ ((prompt.any fun m => m.role == "system") = false →
        injectIntoPrompt mc prompt = ⟨"system", .str mc⟩ :: prompt)
    ∧ proxiedQuery (some ⟨false, cl2, agent2, mctx2⟩) ⟨pr, some copts⟩
      = ⟨pr, some { copts with systemPrompt := some mctx2 }⟩ := by
  have h1 : retrieveAndInjectMemoryIntoOptions ⟨false, some cl, agent, mctx⟩ options
      = { options with prompt := some (injectIntoPrompt mc prompt) } := by
    simp [retrieveAndInjectMemoryIntoOptions, hagent, hret, hmc, hprompt]
  refine ⟨h1, ?_, ?_, ?_, ?_⟩
  · simp [interceptDoGenerate, hg, h1]
  · intro hsys; simp [injectIntoPrompt, hsys]
  · intro hsys; simp [injectIntoPrompt, hsys]
  · simp [proxiedQuery, hmctx2]

/-- Memory client of the C6/C9 witnesses: retrieval succeeds with a stored
value. -/
def clientMemW : MemClient := ⟨fun _ => .ok "User name is Bob."⟩

/-- Prompt with an existing system message, for the C6 witness. -/
def promptSysW : List PromptMsg :=
  [⟨"system", .str "You are helpful"⟩, ⟨"user", .str "What is my name?"⟩]

/-- Options wrapping promptSysW. -/
def optionsSysW : Options := ⟨some promptSysW⟩

/-- Witness for the amended C6 at concrete inputs. -/
theorem claim_C6_memory_injection_witness :
    retrieveAndInjectMemoryIntoOptions ⟨false, some clientMemW, "test-1", ""⟩ optionsSysW
      = { optionsSysW with prompt := some (injectIntoPrompt "User name is Bob." promptSysW) }
    ∧ (interceptDoGenerate omGenW "M.doGenerate" "m1"
        (some ⟨false, some clientMemW, "test-1", ""⟩) optionsSysW).result
      = .ok (genOrigW
          { optionsSysW with prompt := some (injectIntoPrompt "User name is Bob." promptSysW) })
    ∧ ((promptSysW.any fun m => m.role == "system") = true →
        injectIntoPrompt "User name is Bob." promptSysW
          = promptSysW.map fun m =>
              if m.role == "system" then
                { m with content := .str ("User name is Bob." ++ "\n\n" ++ m.content.jsString) }
              else m)
    ∧ ((promptSysW.any fun m => m.role == "system") = false →
        injectIntoPrompt "User name is Bob." promptSysW
          = ⟨"system", .str "User name is Bob."⟩ :: promptSysW)
    ∧ proxiedQuery (some ⟨false, none, "a2", "MEMCTX"⟩) ⟨"q", some ⟨some "sys", "o"⟩⟩
      = ⟨"q", some ⟨some "MEMCTX", "o"⟩⟩ :=
  claim_C6_memory_injection_into_system_slot omGenW "M.doGenerate" "m1" optionsSysW promptSysW
    genOrigW clientMemW "test-1" "User name is Bob." "" none "a2" "MEMCTX" "q" ⟨some "sys", "o"⟩
    rfl rfl rfl rfl rfl rfl

/-- After injection, the rewritten prompt always contains a system message
whose (string-coerced) content starts with the injected memory context. -/
lemma injectIntoPrompt_has_system_prefix (mc : String) (prompt : List PromptMsg) :
    ∃ m ∈ injectIntoPrompt mc prompt,
      m.role = "system" ∧ ∃ rest, m.content.jsString = mc ++ rest := by
  by_cases hsys : (prompt.any fun msg => msg.role == "system") = true
  · obtain ⟨m, hm, hrole⟩ := List.any_eq_true.mp hsys
    have hrole' : m.role = "system" := by simpa using hrole
    refine ⟨{ m with content := .str (mc ++ "\n\n" ++ m.content.jsString) }, ?_, hrole',
      "\n\n" ++ m.content.jsString, by simp [MsgContent.jsString, String.append_assoc]⟩
    unfold injectIntoPrompt
    rw [if_pos hsys]
    have hmem := List.mem_map_of_mem
      (fun msg => if msg.role == "system" then
          { msg with content := MsgContent.str (mc ++ "\n\n" ++ msg.content.jsString) }
        else msg) hm
    simpa [hrole'] using hmem
  · refine ⟨⟨"system", .str mc⟩, ?_, rfl, "", ?_⟩
    · unfold injectIntoPrompt
      rw [if_neg hsys]
      exact List.mem_cons_self _ _
    · simp [MsgContent.jsString]

/-- Claim C9 (implicit frame effect): when memory context is injected on the
Vercel path, the caller-supplied options object is mutated in place — its
prompt array is replaced by one containing the injected system message — so
after interceptDoGenerate or interceptDoStream returns, the caller-owned
request object observably contains the injected memory context (a system
message whose content starts with it). -/
theorem claim_C9_injection_mutates_caller_options
    (omGen : List (String × (Options → GenResponse)))
    (omStr : List (String × (Options → List Chunk)))
    (genKey streamKey modelId : String) (options : Options) (prompt : List PromptMsg)
    (origGen : Options → GenResponse) (origStr : Options → List Chunk)
    (cl : MemClient) (agent mc mctx : String)
    (hg : omGen.lookup genKey = some origGen)
    (hs : omStr.lookup streamKey = some origStr)
    (hagent : agent.isEmpty = false)
    (hret : cl.retrieve agent = .ok mc)
    (hmc : mc.isEmpty = false)
    (hprompt : options.prompt = some prompt) :
    (interceptDoGenerate omGen genKey modelId (some ⟨false, some cl, agent, mctx⟩) options).callerOptions
      = { options with prompt := some (injectIntoPrompt mc prompt) }
    ∧ (interceptDoStream omStr streamKey modelId (some ⟨false, some cl, agent, mctx⟩) options).2
      = { options with prompt := some (injectIntoPrompt mc prompt) }
    ∧ ∃ m ∈ injectIntoPrompt mc prompt,
        m.role = "system" ∧ ∃ rest, m.content.jsString = mc ++ rest := by
  have h1 : retrieveAndInjectMemoryIntoOptions ⟨false, some cl, agent, mctx⟩ options
      = { options with prompt := some (injectIntoPrompt mc prompt) } := by
    simp [retrieveAndInjectMemoryIntoOptions, hagent, hret, hmc, hprompt]
  refine ⟨?_, ?_, injectIntoPrompt_has_system_prefix mc prompt⟩
  · simp [interceptDoGenerate, hg, h1]
  · simp [interceptDoStream, hs, h1]

/-- Concrete originalMethods map for the C9 witness (stream side). -/
def omStrSysW : List (String × (Options → List Chunk)) := [("N.doStream", strOrigW)]

/-- Witness for C9 at concrete inputs. -/
theorem claim_C9_injection_mutates_caller_options_witness :
    (interceptDoGenerate omGenW "M.doGenerate" "m1"
        (some ⟨false, some clientMemW, "test-1", ""⟩) optionsSysW).callerOptions
      = { optionsSysW with prompt := some (injectIntoPrompt "User name is Bob." promptSysW) }
    ∧ (interceptDoStream omStrSysW "N.doStream" "m1"
        (some ⟨false, some clientMemW, "test-1", ""⟩) optionsSysW).2
      = { optionsSysW with prompt := some (injectIntoPrompt "User name is Bob." promptSysW) }
    ∧ ∃ m ∈ injectIntoPrompt "User name is Bob." promptSysW,
        m.role = "system" ∧ ∃ rest, m.content.jsString = "User name is Bob." ++ rest :=
  claim_C9_injection_mutates_caller_options omGenW omStrSysW "M.doGenerate" "N.doStream" "m1"
    optionsSysW promptSysW genOrigW strOrigW clientMemW "test-1" "User name is Bob." ""
    rfl rfl rfl rfl rfl rfl

/-- Counterexample to C4 as stated: a fully consumed instrumented stream
whose chunks carry no text (a lone finish chunk) persists no conversation
turn at all — not exactly one per stream instance. -/
theorem claim_C4_counterexample :
    (consumeStream (.wrapped [⟨"finish", "", "f"⟩] "What is my name?" "m1") 1).2 = []
    ∧ (consumeStream (.wrapped [⟨"finish", "", "f"⟩] "What is my name?" "m1") 1).2.length ≠ 1 := by
  exact ⟨rfl, by decide⟩

/-- Claim C4 as amended: every chunk pulled from an instrumented stream
equals the corresponding chunk of the un-instrumented stream in the same
order; on full consumption or abandonment the cleanup runs once and persists
at most one conversation turn — exactly one (the accumulated assistant text
paired with the user text captured at stream creation) when the persistence
guard of the path holds: on the Vercel path both the accumulated text and
the captured user text nonempty, on the Claude path the pending user text or
the accumulated assistant text nonempty — and none otherwise. -/
theorem claim_C4_stream_fidelity_and_persistence
    (chunks : List Chunk) (userMessage modelName : String) (k : Nat)
    (msgs : List SDKMsg) (pending : String) (j : Nat) :
    (consumeStream (.wrapped chunks userMessage modelName) k).1 = chunks.take k
    ∧ (consumeStream (.wrapped chunks userMessage modelName) k).2.length ≤ 1
    ∧ ((consumeStream (.wrapped chunks userMessage modelName) k).2
        = [⟨"vercel", modelName, buildRequestMessages userMessage,
            ⟨"assistant", accumulateStreamText (chunks.take k)⟩⟩]
      ↔ (accumulateStreamText (chunks.take k)).isEmpty = false ∧ userMessage.isEmpty = false)
    ∧ ((consumeStream (.wrapped chunks userMessage modelName) k).2 = []
      ↔ ((accumulateStreamText (chunks.take k)).isEmpty = true ∨ userMessage.isEmpty = true))
    ∧ (consumeClaude msgs pending j).yielded = msgs.take j
    ∧ (consumeClaude msgs pending j).saves.length ≤ 1
    ∧ ((consumeClaude msgs pending j).saves = []
      ↔ (pending.isEmpty = true ∧ (claudeAccum (msgs.take j)).isEmpty = true)) := by
  cases ha : (accumulateStreamText (chunks.take k)).isEmpty <;>
  cases hb : userMessage.isEmpty <;>
  cases hp : pending.isEmpty <;>
  cases hc : (claudeAccum (msgs.take j)).isEmpty <;>
  simp [consumeStream, consumeClaude, ha, hb, hp, hc]

/-- Repatching a class this instance already recorded as patched is a no-op
(the top guard of tryPatchProviderModels). -/
lemma tryPatch_noop_of_patched (instId : Nat) (st : VInstSt) (className : String) (proto : Proto)
    (h : st.patchedClasses.contains className = true) :
    tryPatchProviderModels instId st className proto = (st, proto, true) := by
  unfold tryPatchProviderModels
  rw [if_pos h]

/-- A fresh instance that patches a class records exactly that class. -/
lemma tryPatch_fresh_patched (instId : Nat) (className : String) (proto : Proto) :
    (tryPatchProviderModels instId ⟨[], []⟩ className proto).1.patchedClasses = [className] := rfl

/-- Class name used by the C2 scenario. -/
def cnameA : String := "AnthropicMessagesLanguageModel"

/-- One fresh VercelInterceptor instance installing over the pristine
prototype. -/
def installA : VInstSt × Proto × Bool :=
  tryPatchProviderModels 0 ⟨[], []⟩ cnameA ⟨.original, .original⟩

/-- The environment after that instance ran uninstall(): its bookkeeping is
cleared, the prototype (deliberately not an input of vercelUninstall, which
keeps no reference to it) is left as installA produced it. -/
def envUninstA : Nat → VInstSt := fun _ => vercelUninstall installA.1

/-- Claim C2 states uninstall() restores the pre-patch call surface; the
VercelInterceptor code violates it.  Evaluating the code at the failing
input — install(), then uninstall(), then a provider call outside any scope —
shows the prototype still holds the wrapper, and the call now throws
Original-method-not-found where the pre-patch surface returned normally;
a second uninstall() still does not throw and changes nothing. -/
theorem claim_C2_uninstall_does_not_restore :
    installA.2.1.doGenerate = .wrapper 0 (cnameA ++ ".doGenerate")
    ∧ callMethod envUninstA 5 MethodImpl.original = .ok 1
    ∧ callMethod envUninstA 5 installA.2.1.doGenerate
      = .error ("Original method not found: " ++ (cnameA ++ ".doGenerate"))
    ∧ vercelUninstall (vercelUninstall installA.1) = vercelUninstall installA.1 := by
  exact ⟨rfl, rfl, rfl, rfl⟩

/-- Class name used by the C3 scenario. -/
def cnameB : String := "OpenAIChatLanguageModel"

/-- First fresh interceptor instance (id 1) installing over the pristine
prototype. -/
def installB1 : VInstSt × Proto × Bool :=
  tryPatchProviderModels 1 ⟨[], []⟩ cnameB ⟨.original, .original⟩

/-- Second fresh interceptor instance (id 2) installing over the prototype
already patched by instance 1 — its own patchedClasses set is empty, so it
patches again, storing instance 1's wrapper as the "original". -/
def installB2 : VInstSt × Proto × Bool :=
  tryPatchProviderModels 2 ⟨[], []⟩ cnameB installB1.2.1

/-- Environment holding both instances' bookkeeping. -/
def envTwo : Nat → VInstSt := fun i => if i == 1 then installB1.1 else installB2.1

/-- Counterexample to C3 as stated: after two interceptor instances install
over the same class, the doGenerate slot carries two wrapper layers, not
exactly one — the already-patched marker is per instance, not process-wide. -/
theorem claim_C3_counterexample :
    wrapperLayers envTwo 9 installB2.2.1.doGenerate = some 2
    ∧ wrapperLayers envTwo 9 installB2.2.1.doGenerate ≠ some 1 := by
  exact ⟨rfl, by decide⟩

/-- Claim C3 as amended: repeated install() on the same interceptor instance
yields exactly one wrapper layer per (class, method) pair — the
already-patched marker is per-instance, not process-wide — while installs
from distinct instances over the same class stack an additional wrapper
layer each; the pristine original stays reachable at the bottom of the chain
and is still invoked exactly once per call. -/
theorem claim_C3_install_idempotent_per_instance :
    (∀ (className : String) (proto : Proto) (instId : Nat),
      tryPatchProviderModels instId
          (tryPatchProviderModels instId ⟨[], []⟩ className proto).1 className
          (tryPatchProviderModels instId ⟨[], []⟩ className proto).2.1
        = ((tryPatchProviderModels instId ⟨[], []⟩ className proto).1,
           (tryPatchProviderModels instId ⟨[], []⟩ className proto).2.1, true))
    ∧ wrapperLayers envTwo 9 installB1.2.1.doGenerate = some 1
    ∧ callMethod envTwo 9 installB2.2.1.doGenerate = .ok 1 := by
  refine ⟨?_, rfl, rfl⟩
  intro className proto instId
  apply tryPatch_noop_of_patched
  rw [tryPatch_fresh_patched]
  simp

/-- Claim C8: the registry install() iterates every registered variant in
order, checking availability on a fresh instance and installing each
available one inside a try/catch — so the activated providers are exactly
the available variants whose install() does not throw, in registration
order, and a throwing install() never prevents later variants from being
attempted or collected; uninstallAll() attempts uninstall() on every
previously-activated instance (tolerating individual failures) and then
empties the active set. -/
theorem claim_C8_registry_install_uninstall_contract
    (variants : List VariantSpec) (active : List VariantSpec) :
    (registryInstall variants).1
      = (variants.filter fun v => v.available && !v.installThrows).map (·.provider)
    ∧ (registryInstall variants).2
      = variants.filter (fun v => v.available && !v.installThrows)
    ∧ (uninstallAllModel active).1 = active.map (·.provider)
    ∧ (uninstallAllModel active).2 = [] := by
  have key : ∀ vs : List VariantSpec,
      registryInstall vs
        = ((vs.filter fun v => v.available && !v.installThrows).map (·.provider),
           vs.filter fun v => v.available && !v.installThrows) := by
    intro vs
    induction vs with
    | nil => rfl
    | cons v rest ih =>
      cases hA : v.available <;> cases hT : v.installThrows <;>
        simp [registryInstall, hA, hT, ih, List.filter_cons]
  refine ⟨?_, ?_, rfl, rfl⟩
  · rw [key]
  · rw [key]

/-- Claim C10: ClaudeInterceptor.isAvailable() answers true whenever reading
the module cache does not throw — whether or not the Claude Agent SDK is
cached or requireable (strategy 3 always answers true, relying on lazy
require-hook installation) — so the registry install() reports "claude"
among the activated providers regardless of the actual presence of that SDK
(its install() swallows all patching errors and never throws). -/
theorem claim_C10_claude_reported_available_regardless
    (cacheKeys : List String) (requireOk : Bool) (rest : List VariantSpec) :
    claudeIsAvailable true cacheKeys requireOk = true
    ∧ "claude" ∈ (registryInstall
        (⟨"claude", claudeIsAvailable true cacheKeys requireOk, false, false⟩ :: rest)).1 := by
  have h : claudeIsAvailable true cacheKeys requireOk = true := by
    unfold claudeIsAvailable
    simp
  refine ⟨h, ?_⟩
  simp [registryInstall, h]
